import Mathlib

/-!
Verification of the core simulation logic of a Snake game
(`snake_game.py`): snake movement and direction queueing, collision
detection, food placement, the game-manager update step, and
high-score persistence.  Positions are embedded exactly as in the
source: pixel coordinates, with one grid cell = `SNAKE_SIZE = 20`
pixels on an 800x600 screen (a 40x30 cell board).
-/

namespace SnakeGame

/-- `pygame.Vector2` as used by the source: here always integer-valued. -/
structure Vec2 where
  x : Int
  y : Int
deriving DecidableEq, Repr

instance : Add Vec2 := ⟨fun a b => ⟨a.x + b.x, a.y + b.y⟩⟩

instance : Neg Vec2 := ⟨fun a => ⟨-a.x, -a.y⟩⟩

/- `Config` constants from the source. -/
namespace Config

def SCREEN_WIDTH : Int := 800

def SCREEN_HEIGHT : Int := 600

def SNAKE_SIZE : Int := 20

def FOOD_SIZE : Int := 20

end Config

/-- The `Snake` class state: body (head first), current direction,
pending-direction deque, grow flag. -/
structure Snake where
  body : List Vec2
  direction : Vec2
  next_direction : List Vec2
  growing : Bool
deriving DecidableEq, Repr

/-- `Snake.__init__`: one segment at the screen center, heading right. -/
def Snake.init : Snake :=
  { body := [⟨Config.SCREEN_WIDTH / 2, Config.SCREEN_HEIGHT / 2⟩]
    direction := ⟨Config.SNAKE_SIZE, 0⟩
    next_direction := []
    growing := false }

/-- `Snake.move`: pop at most one queued direction (discarding it when
either component is the negation of the current direction's matching
component), prepend the new head, and drop the tail unless growing. -/
def Snake.move (s : Snake) : Snake :=
  let dir :=
    match s.next_direction with
    | [] => s.direction
    | d :: _ =>
      if d.x ≠ -s.direction.x ∧ d.y ≠ -s.direction.y then d
      else s.direction
  let new_head := s.body.headD ⟨0, 0⟩ + dir
  let body' := new_head :: s.body
  if s.growing then
    { body := body', direction := dir, next_direction := s.next_direction.tail,
      growing := false }
  else
    { body := body'.dropLast, direction := dir,
      next_direction := s.next_direction.tail, growing := s.growing }

/-- `Snake.grow`: set the growing flag. -/
def Snake.grow (s : Snake) : Snake := { s with growing := true }

/-- `Snake.check_collision`: head out of screen bounds, or head equal to
some other body cell. -/
def Snake.check_collision (s : Snake) : Bool :=
  let head := s.body.headD ⟨0, 0⟩
  if head.x < 0 ∨ head.x ≥ Config.SCREEN_WIDTH ∨
      head.y < 0 ∨ head.y ≥ Config.SCREEN_HEIGHT then true
  else if head ∈ s.body.tail then true
  else false

/-- Conversion from the source's pixel coordinates to grid units
(one cell = `SNAKE_SIZE` = 20 pixels), used to state spec scenarios
that speak in cells. -/
def toGrid (v : Vec2) : Vec2 := ⟨v.x / Config.SNAKE_SIZE, v.y / Config.SNAKE_SIZE⟩

/-- The four direction vectors produced by `GameManager.handle_events`
(d/right key). -/
def dirRight : Vec2 := ⟨Config.SNAKE_SIZE, 0⟩

/-- Direction vector for the a/left key. -/
def dirLeft : Vec2 := ⟨-Config.SNAKE_SIZE, 0⟩

/-- Direction vector for the w/up key (screen y grows downward). -/
def dirUp : Vec2 := ⟨0, -Config.SNAKE_SIZE⟩

/-- Direction vector for the s/down key. -/
def dirDown : Vec2 := ⟨0, Config.SNAKE_SIZE⟩

/-- A vector is one of the four game directions. -/
def isDir (v : Vec2) : Prop :=
  v = dirRight ∨ v = dirLeft ∨ v = dirUp ∨ v = dirDown

instance (v : Vec2) : Decidable (isDir v) := by
  unfold isDir
  infer_instance

/-- Two direction vectors lie on the same axis (both horizontal or both
vertical). -/
def sameAxis (a b : Vec2) : Prop := (a.y = 0 ∧ b.y = 0) ∨ (a.x = 0 ∧ b.x = 0)

instance (a b : Vec2) : Decidable (sameAxis a b) := by
  unfold sameAxis
  infer_instance

/-- One sampling attempt of `Food.generate_position`: the two `randint`
results (`randint(0, (800-20)//20)` = [0,39] and `randint(0, (600-20)//20)`
= [0,29]) scaled by `FOOD_SIZE`. -/
def randCell (r : Fin 40 × Fin 30) : Vec2 :=
  ⟨(r.1.val : Int) * Config.FOOD_SIZE, (r.2.val : Int) * Config.FOOD_SIZE⟩

/-- `Food.generate_position`: repeatedly sample a random grid-aligned
cell until one not in the snake body is found.  The random source is a
stream `rnd` of samples consumed from index `i`; `fuel` bounds the
number of attempts (the source loops without bound; `none` models a run
of attempts that never left the snake body). -/
def Food.generate_position (snake_body : List Vec2) (rnd : Nat → Fin 40 × Fin 30) :
    Nat → Nat → Option Vec2
  | 0, _ => none
  | fuel + 1, i =>
    let position := randCell (rnd i)
    if position ∈ snake_body then
      Food.generate_position snake_body rnd fuel (i + 1)
    else some position

/-- The `Food` class state: a single position. -/
structure Food where
  position : Vec2
deriving DecidableEq, Repr

/-- `Food.respawn`: replace the position by a fresh
`generate_position` sample. -/
def Food.respawn (f : Food) (snake_body : List Vec2) (rnd : Nat → Fin 40 × Fin 30)
    (fuel : Nat) : Option Food :=
  (Food.generate_position snake_body rnd fuel 0).map
    fun p => { f with position := p }

/-- The food cell fits on the screen: the drawn `FOOD_SIZE` square lies
within the 800x600 bounds (equivalently, the cell is on the 40x30
board). -/
def foodInBounds (p : Vec2) : Prop :=
  0 ≤ p.x ∧ p.x + Config.FOOD_SIZE ≤ Config.SCREEN_WIDTH ∧
    0 ≤ p.y ∧ p.y + Config.FOOD_SIZE ≤ Config.SCREEN_HEIGHT

instance (p : Vec2) : Decidable (foodInBounds p) := by
  unfold foodInBounds
  infer_instance

/-- Python's `int(...)` on a digit string: fold decimal digits,
most-significant first. -/
def parseDigits (cs : List Char) : Nat :=
  cs.foldl (fun n c => n * 10 + (c.toNat - Char.toNat '0')) 0

/-- Python's `str.isspace()` per character — the exact set `str.strip`
removes: U+0009..U+000D, U+001C..U+001F, space, U+0085, U+00A0, U+1680,
U+2000..U+200A, U+2028, U+2029, U+202F, U+205F and U+3000. -/
def pyIsSpace (c : Char) : Bool :=
  c.toNat ∈ [0x09, 0x0A, 0x0B, 0x0C, 0x0D, 0x1C, 0x1D, 0x1E, 0x1F, 0x20,
    0x85, 0xA0, 0x1680, 0x2000, 0x2001, 0x2002, 0x2003, 0x2004, 0x2005,
    0x2006, 0x2007, 0x2008, 0x2009, 0x200A, 0x2028, 0x2029, 0x202F,
    0x205F, 0x3000]

/-- Python's `str.strip()`: drop Unicode whitespace from both ends. -/
def stripChars (cs : List Char) : List Char :=
  ((cs.dropWhile pyIsSpace).reverse.dropWhile pyIsSpace).reverse

/-- The ASCII-decimal fragment of Python's `str.isdigit()`: non-empty
and all ASCII digits.  `str.isdigit` additionally accepts every Unicode
character of Numeric_Type Digit or Decimal; `load_high_score` below is
therefore exact only on ASCII content — which is all the game itself
ever writes — and the full pipeline, including the characters where
`isdigit` and `int()` disagree, is modeled by `pyLoad`. -/
def isdigitStr (cs : List Char) : Bool :=
  !cs.isEmpty && cs.all fun c => c.isDigit

/-- `GameManager.load_high_score`: the file content as `Option (List
Char)` (`none` = file absent); returns the parsed value when the
stripped content is a non-empty digit string, else 0.  This is the
ASCII-decimal fragment of the Python semantics (exact on the ASCII
content the game writes); `pyLoad` models the unrestricted behavior. -/
def load_high_score (store : Option (List Char)) : Nat :=
  match store with
  | none => 0
  | some content =>
    let c := stripChars content
    if isdigitStr c then parseDigits c else 0

/-- The per-character Unicode data Python's `str.isdigit` and `int()`
consult: `isDigit c` is `str.isdigit` on the one-character string
(true iff the character has Numeric_Type Digit or Decimal), and
`decimalVal c` is `some v` iff the character has Numeric_Type Decimal
with value `v` — the characters `int()` accepts. -/
structure PyCharData where
  isDigit : Char → Bool
  decimalVal : Char → Option Nat

/-- Python's `str.isdigit()` under the character data `P`. -/
def pyIsdigit (P : PyCharData) (cs : List Char) : Bool :=
  !cs.isEmpty && cs.all P.isDigit

/-- Python's `int(...)` under the character data `P`, on strings
accepted by `str.isdigit`: succeeds iff every character has a decimal
value, folding those values; raises `ValueError` (modeled as
`Except.error ()`) otherwise — e.g. on superscripts, which are Digit
but not Decimal. -/
def pyInt (P : PyCharData) (cs : List Char) : Except Unit Nat :=
  if cs.all fun c => (P.decimalVal c).isSome then
    Except.ok (cs.foldl (fun n c => n * 10 + (P.decimalVal c).getD 0) 0)
  else Except.error ()

/-- `GameManager.load_high_score` as Python executes it, parametrized by
the Unicode character data `P`: strip, test `isdigit`, then `int` —
whose `ValueError` (when `isdigit` accepted a character `int` rejects)
propagates to the caller as `Except.error ()`. -/
def pyLoad (P : PyCharData) (store : Option (List Char)) : Except Unit Nat :=
  match store with
  | none => Except.ok 0
  | some content =>
    let c := stripChars content
    if pyIsdigit P c then pyInt P c
    else Except.ok 0

/-- A concrete character table agreeing with the Unicode database on
the ASCII digits, the superscript digits ¹²³ (Numeric_Type Digit, no
decimal value) and the Arabic-Indic digits ٠..٩ (Numeric_Type Decimal,
values 0..9). -/
def pyData0 : PyCharData :=
  { isDigit := fun c =>
      c.isDigit ||
        c ∈ ['¹', '²', '³', '٠', '١', '٢', '٣', '٤', '٥', '٦', '٧', '٨', '٩']
    decimalVal := fun c =>
      if c.isDigit then some (c.toNat - Char.toNat '0')
      else if c ∈ ['٠', '١', '٢', '٣', '٤', '٥', '٦', '٧', '٨', '٩'] then
        some (c.toNat - Char.toNat '٠')
      else none }

/-- Decimal digits of `n`, least significant first. -/
def natDigitsRev (n : Nat) : List Nat :=
  if h : n = 0 then [] else n % 10 :: natDigitsRev (n / 10)
termination_by n
decreasing_by exact Nat.div_lt_self (Nat.pos_of_ne_zero h) (by omega)

/-- The ASCII character of a decimal digit. -/
def digitChar (d : Nat) : Char := Char.ofNat (Char.toNat '0' + d)

/-- Python's `str(n)` for a natural number: decimal, most-significant
digit first. -/
def natRepr (n : Nat) : List Char :=
  if n = 0 then ['0'] else (natDigitsRev n).reverse.map digitChar

/-- The two values `game_state` takes in the source ("start" /
"playing"); paused and game-over are separate flags. -/
inductive GState
  | start
  | playing
deriving DecidableEq, Repr

/-- The keyboard keys the source reacts to (w/s/a/d, arrows, space, p,
q, r); `other` stands for any other key. -/
inductive Key
  | space
  | q
  | r
  | p
  | w
  | s
  | a
  | d
  | up
  | down
  | left
  | right
  | other
deriving DecidableEq, Repr

/-- The `GameManager` state, together with the external high-score file
content (`store`, `none` = file absent) so that persistence is part of
the modeled state. -/
structure GameManager where
  snake : Snake
  food : Vec2
  score : Nat
  high_score : Nat
  game_over : Bool
  paused : Bool
  game_state : GState
  store : Option (List Char)
deriving DecidableEq, Repr

/-- `GameManager.save_high_score`: overwrite the file with the decimal
representation of the current high score. -/
def GameManager.save_high_score (g : GameManager) : GameManager :=
  { g with store := some (natRepr g.high_score) }

/-- `GameManager.reset_game`: fresh snake, fresh food avoiding the fresh
snake's body, score 0, round not over.  `none` models a food-placement
sampling run that never finds a free cell. -/
def GameManager.reset_game (g : GameManager) (rnd : Nat → Fin 40 × Fin 30)
    (fuel : Nat) : Option GameManager :=
  match Food.generate_position Snake.init.body rnd fuel 0 with
  | none => none
  | some p =>
    some { g with snake := Snake.init, food := p, score := 0, game_over := false }

/-- The tail of `GameManager.update`: check collisions; on collision end
the round and, when the score beats the high score, set and persist the
new high score. -/
def GameManager.end_round_check (g1 : GameManager) : GameManager :=
  if g1.snake.check_collision then
    if g1.score > g1.high_score then
      GameManager.save_high_score
        { g1 with game_over := true, high_score := g1.score }
    else { g1 with game_over := true }
  else g1

/-- `GameManager.update`: when playing, unpaused and round not over:
move the snake; if the new head is on the food, respawn the food off the
new body, mark growth and increment the score; then run
`end_round_check` on the result.  Otherwise a no-op.  `none` models a
food-respawn sampling run that never finds a free cell. -/
def GameManager.update (g : GameManager) (rnd : Nat → Fin 40 × Fin 30)
    (fuel : Nat) : Option GameManager :=
  if g.game_state = GState.playing ∧ g.paused = false ∧ g.game_over = false then
    if (g.snake.move).body.headD ⟨0, 0⟩ = g.food then
      match Food.generate_position (g.snake.move).body rnd fuel 0 with
      | none => none
      | some p =>
        some (GameManager.end_round_check
          { g with snake := (g.snake.move).grow, food := p,
                   score := g.score + 1 })
    else some (GameManager.end_round_check { g with snake := g.snake.move })
  else some g

/-- The direction vector a key enqueues, if any. -/
def dirOfKey : Key → Option Vec2
  | Key.w => some dirUp
  | Key.up => some dirUp
  | Key.s => some dirDown
  | Key.down => some dirDown
  | Key.a => some dirLeft
  | Key.left => some dirLeft
  | Key.d => some dirRight
  | Key.right => some dirRight
  | _ => none

/-- One `KEYDOWN` event of `GameManager.handle_events`.  Returns the new
state and the `running` flag (`false` = quit); `none` models a reset
whose food placement never found a free cell. -/
def GameManager.handle_key (g : GameManager) (k : Key)
    (rnd : Nat → Fin 40 × Fin 30) (fuel : Nat) : Option (GameManager × Bool) :=
  if g.game_state = GState.start then
    if k = Key.space then
      (g.reset_game rnd fuel).map fun g1 =>
        ({ g1 with game_state := GState.playing }, true)
    else if k = Key.q then some (g, false)
    else some (g, true)
  else
    if g.game_over then
      if k = Key.r then
        (g.reset_game rnd fuel).map fun g1 =>
          ({ g1 with game_state := GState.playing }, true)
      else if k = Key.q then some ({ g with game_state := GState.start }, true)
      else some (g, true)
    else if k = Key.p then some ({ g with paused := !g.paused }, true)
    else if g.paused then some (g, true)
    else
      match dirOfKey k with
      | some d =>
        if g.snake.next_direction.length < 2 then
          some ({ g with snake :=
            { g.snake with next_direction := g.snake.next_direction ++ [d] } }, true)
        else some (g, true)
      | none => some (g, true)

/-- Concrete playing-state manager used to instantiate the `handle_key`
theorem. -/
def gW4 : GameManager :=
  { snake := Snake.init, food := ⟨0, 0⟩, score := 0, high_score := 0,
    game_over := false, paused := false, game_state := GState.playing,
    store := none }

/-- The state after pressing `w` in `gW4`. -/
def gW4' : GameManager :=
  { gW4 with snake := { gW4.snake with next_direction := [dirUp] } }

/-- Concrete playing-state manager away from the food and the walls,
used to instantiate the `update` contract. -/
def gW7 : GameManager :=
  { snake := Snake.init, food := ⟨0, 0⟩, score := 0, high_score := 0,
    game_over := false, paused := false, game_state := GState.playing,
    store := none }

/-- The state after one `update` from `gW7` (snake moved, nothing
eaten, no collision). -/
def gW7' : GameManager := { gW7 with snake := gW7.snake.move }

/-- Concrete manager about to hit the left wall with score below the
high score, used to instantiate the game-over persistence theorem. -/
def gW8 : GameManager :=
  { snake := { body := [⟨0, 300⟩], direction := dirLeft, next_direction := [],
               growing := false },
    food := ⟨0, 0⟩, score := 3, high_score := 5, game_over := false,
    paused := false, game_state := GState.playing, store := none }

/-- The state after the wall hit from `gW8`. -/
def gW8' : GameManager := { gW8 with snake := gW8.snake.move, game_over := true }

theorem Vec2.add_def (a b : Vec2) : a + b = ⟨a.x + b.x, a.y + b.y⟩ := rfl

theorem Vec2.neg_def (a : Vec2) : -a = ⟨-a.x, -a.y⟩ := rfl

theorem Snake.move_next_direction (s : Snake) :
    (s.move).next_direction = s.next_direction.tail := by
  unfold Snake.move
  cases s.growing <;> simp

theorem Snake.move_direction (s : Snake) :
    (s.move).direction =
      match s.next_direction with
      | [] => s.direction
      | d :: _ =>
        if d.x ≠ -s.direction.x ∧ d.y ≠ -s.direction.y then d
        else s.direction := by
  unfold Snake.move
  cases s.growing <;> simp

theorem Snake.move_body (s : Snake) :
    (s.move).body =
      if s.growing then (s.body.headD ⟨0, 0⟩ + (s.move).direction) :: s.body
      else ((s.body.headD ⟨0, 0⟩ + (s.move).direction) :: s.body).dropLast := by
  rw [Snake.move_direction]
  unfold Snake.move
  cases hg : s.growing <;> simp

theorem Snake.move_growing (s : Snake) : (s.move).growing = false := by
  unfold Snake.move
  cases s.growing <;> simp

/-- C1 counterexample: the spec scenario claims that after 3 `move`
calls from the initial single-cell snake the body is the three cells
[(23,15),(22,15),(21,15)]; in the code `move` preserves body length, so
a length-1 snake stays length 1 and the body is just [(23,15)]. -/
theorem c1_counterexample :
    ¬ (Snake.init.move.move.move).body.map toGrid =
        [⟨23, 15⟩, ⟨22, 15⟩, ⟨21, 15⟩] := by
  decide

/-- C1 (amended): from the initial snake (single cell at grid (20,15) on
the 40x30 board, heading right), three `move` calls with an empty queue
leave the body the single cell [(23,15)] in grid units — the head
advances one cell right per call and `move` preserves length — with the
heading unchanged; after food is eaten at the head (grow), the next
`move` makes the body length 2 (old length + 1). -/
theorem c1_example_scenario :
    (Snake.init.move.move.move).body.map toGrid = [⟨23, 15⟩] ∧
      (Snake.init.move.move.move).direction = Snake.init.direction ∧
      Snake.init.body.map toGrid = [⟨20, 15⟩] ∧
      ((Snake.init.move.move.move).grow.move).body.length = 2 := by
  decide

/-- C2: one `move` call leaves the body length unchanged when the grow
flag is false, increases it by exactly 1 when the grow flag is true, and
always leaves the grow flag false afterwards.  (Proved for all Snake
states, hence in particular all reachable ones.) -/
theorem c2_advance_length (s : Snake) :
    (s.move).body.length = s.body.length + (if s.growing then 1 else 0) ∧
      (s.move).growing = false := by
  refine ⟨?_, Snake.move_growing s⟩
  rw [Snake.move_body]
  cases hg : s.growing
  · simp [List.length_dropLast]
  · simp

theorem Vec2.eq_mk (v : Vec2) : v = ⟨v.x, v.y⟩ := rfl

theorem Vec2.ne_neg_self (v : Vec2) (h : v ≠ (⟨0, 0⟩ : Vec2)) : v ≠ -v := by
  intro he
  apply h
  have hx : v.x = -v.x := congrArg Vec2.x he
  have hy : v.y = -v.y := congrArg Vec2.y he
  have hx0 : v.x = 0 := by omega
  have hy0 : v.y = 0 := by omega
  rw [Vec2.eq_mk v, hx0, hy0]

/-- C3: `move` never sets the heading to the exact opposite of the
current heading (for any snake whose heading is nonzero — true of every
reachable state, whose heading is one of the four unit direction
vectors); and in the spec scenario, heading Right with Left enqueued
twice, both queued Lefts are discarded on successive `move` calls and
the heading remains Right after both. -/
theorem c3_no_reversal :
    (∀ s : Snake, s.direction ≠ (⟨0, 0⟩ : Vec2) →
        (s.move).direction ≠ -s.direction) ∧
      (({ Snake.init with next_direction := [dirLeft, dirLeft] } : Snake).move.direction
          = dirRight ∧
        ({ Snake.init with next_direction := [dirLeft, dirLeft] } : Snake).move.next_direction
          = [dirLeft] ∧
        ({ Snake.init with next_direction := [dirLeft, dirLeft] } : Snake).move.move.direction
          = dirRight ∧
        ({ Snake.init with next_direction := [dirLeft, dirLeft] } : Snake).move.move.next_direction
          = []) := by
  constructor
  · intro s hs
    rw [Snake.move_direction]
    cases hq : s.next_direction with
    | nil => exact Vec2.ne_neg_self s.direction hs
    | cons d rest =>
      show (if d.x ≠ -s.direction.x ∧ d.y ≠ -s.direction.y then d
          else s.direction) ≠ -s.direction
      by_cases hc : d.x ≠ -s.direction.x ∧ d.y ≠ -s.direction.y
      · rw [if_pos hc]
        intro he
        exact hc.1 (by rw [he]; rfl)
      · rw [if_neg hc]
        exact Vec2.ne_neg_self s.direction hs
  · refine ⟨by decide, by decide, by decide, by decide⟩

/-- C3 witness: the no-reversal theorem instantiated at the initial
snake. -/
theorem c3_no_reversal_witness :
    (Snake.init.move).direction ≠ -Snake.init.direction :=
  c3_no_reversal.1 Snake.init (by decide)

/-- C10: when the pending queue is non-empty and its head `d` is one of
the four direction vectors (as is every queued entry in a reachable
state), `move` pops `d` and changes the heading iff `d` is perpendicular
to the current heading: a popped direction on the same axis as the
heading — the identical direction included, not only the exact
opposite — is discarded. -/
theorem c10_same_axis_discarded (s : Snake) (d : Vec2) (rest : List Vec2)
    (hq : s.next_direction = d :: rest) (hd : isDir d)
    (hdir : isDir s.direction) :
    (s.move).direction = (if sameAxis d s.direction then s.direction else d) ∧
      (s.move).next_direction = rest := by
  refine ⟨?_, by rw [Snake.move_next_direction, hq]; rfl⟩
  rw [Snake.move_direction, hq]
  rcases hd with h1 | h1 | h1 | h1 <;> rcases hdir with h2 | h2 | h2 | h2 <;>
    rw [h1, h2] <;>
    simp [sameAxis, dirRight, dirLeft, dirUp, dirDown, Config.SNAKE_SIZE]

/-- C10 witness: heading Right with Down queued — perpendicular, so the
heading changes to Down and the queue is consumed. -/
theorem c10_same_axis_discarded_witness :
    (({ Snake.init with next_direction := [dirDown] } : Snake).move.direction
        = (if sameAxis dirDown ({ Snake.init with next_direction := [dirDown] } : Snake).direction
            then ({ Snake.init with next_direction := [dirDown] } : Snake).direction
            else dirDown)) ∧
      ({ Snake.init with next_direction := [dirDown] } : Snake).move.next_direction = [] :=
  c10_same_axis_discarded { Snake.init with next_direction := [dirDown] }
    dirDown [] rfl (by decide) (by decide)

/-- C6: `check_collision` returns true iff the head cell is outside the
screen bounds or occurs more than once in the body.  (The embedding is
a pure function of the snake state, matching the source's read-only
check.) -/
theorem c6_check_collision_iff (s : Snake) (hne : s.body ≠ []) :
    s.check_collision = true ↔
      ((s.body.headD ⟨0, 0⟩).x < 0 ∨
        (s.body.headD ⟨0, 0⟩).x ≥ Config.SCREEN_WIDTH ∨
        (s.body.headD ⟨0, 0⟩).y < 0 ∨
        (s.body.headD ⟨0, 0⟩).y ≥ Config.SCREEN_HEIGHT ∨
        2 ≤ s.body.count (s.body.headD ⟨0, 0⟩)) := by
  cases hb : s.body with
  | nil => exact absurd hb hne
  | cons hd tl =>
    have hcnt : 0 < tl.count hd ↔ hd ∈ tl := List.count_pos_iff
    unfold Snake.check_collision
    simp only [hb, List.headD_cons, List.tail_cons, List.count_cons_self]
    split_ifs with h1 h2
    · exact ⟨fun _ => by tauto, fun _ => rfl⟩
    · refine ⟨fun _ => ?_, fun _ => rfl⟩
      have := hcnt.mpr h2
      right; right; right; right
      omega
    · constructor
      · intro h
        exact absurd h (by decide)
      · intro h
        rcases h with h | h | h | h | h
        · exact absurd (Or.inl h) h1
        · exact absurd (Or.inr (Or.inl h)) h1
        · exact absurd (Or.inr (Or.inr (Or.inl h))) h1
        · exact absurd (Or.inr (Or.inr (Or.inr h))) h1
        · exact absurd (hcnt.mp (by omega)) h2

theorem generate_position_sound (snake_body : List Vec2)
    (rnd : Nat → Fin 40 × Fin 30) (fuel i : Nat) (p : Vec2)
    (h : Food.generate_position snake_body rnd fuel i = some p) :
    p ∉ snake_body ∧ foodInBounds p := by
  induction fuel generalizing i with
  | zero => exact absurd h (by simp [Food.generate_position])
  | succ fuel ih =>
    rw [Food.generate_position] at h
    by_cases hmem : randCell (rnd i) ∈ snake_body
    · rw [if_pos hmem] at h
      exact ih (i + 1) h
    · rw [if_neg hmem] at h
      have hp : p = randCell (rnd i) := (Option.some.injEq _ _).mp h.symm
      subst hp
      refine ⟨hmem, ?_⟩
      have hx := (rnd i).1.isLt
      have hy := (rnd i).2.isLt
      unfold foodInBounds randCell Config.FOOD_SIZE Config.SCREEN_WIDTH
        Config.SCREEN_HEIGHT
      refine ⟨by positivity, ?_, by positivity, ?_⟩ <;> simp only <;> omega

/-- C5: whenever `Food.generate_position` returns a cell, that cell is
not in the snake body it was given and lies on the board; and whenever
the body leaves some grid cell free (i.e. does not cover the entire
40x30 board), there is a random stream on which placement succeeds. -/
theorem c5_food_placement :
    (∀ (snake_body : List Vec2) (rnd : Nat → Fin 40 × Fin 30) (fuel i : Nat)
        (p : Vec2), Food.generate_position snake_body rnd fuel i = some p →
        p ∉ snake_body ∧ foodInBounds p) ∧
      (∀ snake_body : List Vec2, (∃ r : Fin 40 × Fin 30, randCell r ∉ snake_body) →
        ∃ (rnd : Nat → Fin 40 × Fin 30) (p : Vec2),
          Food.generate_position snake_body rnd 1 0 = some p) := by
  constructor
  · exact generate_position_sound
  · intro snake_body ⟨r, hr⟩
    refine ⟨fun _ => r, randCell r, ?_⟩
    rw [Food.generate_position, if_neg hr]

/-- C5 witness: placement on an empty body succeeds at the first sample
and lands off the (empty) body and on the board. -/
theorem c5_food_placement_witness :
    ((⟨0, 0⟩ : Vec2) ∉ ([] : List Vec2) ∧ foodInBounds ⟨0, 0⟩) ∧
      ∃ (rnd : Nat → Fin 40 × Fin 30) (p : Vec2),
        Food.generate_position [] rnd 1 0 = some p :=
  ⟨c5_food_placement.1 [] (fun _ => (0, 0)) 1 0 ⟨0, 0⟩ (by decide),
    c5_food_placement.2 [] ⟨(0, 0), by decide⟩⟩

/-- C6 witness: a two-segment snake whose head equals its second segment
collides. -/
theorem c6_check_collision_iff_witness :
    (({ Snake.init with body := [⟨400, 300⟩, ⟨400, 300⟩] } : Snake).check_collision = true ↔
      ((⟨400, 300⟩ : Vec2).x < 0 ∨
        (⟨400, 300⟩ : Vec2).x ≥ Config.SCREEN_WIDTH ∨
        (⟨400, 300⟩ : Vec2).y < 0 ∨
        (⟨400, 300⟩ : Vec2).y ≥ Config.SCREEN_HEIGHT ∨
        2 ≤ ([⟨400, 300⟩, ⟨400, 300⟩] : List Vec2).count ⟨400, 300⟩)) :=
  c6_check_collision_iff { Snake.init with body := [⟨400, 300⟩, ⟨400, 300⟩] }
    (by decide)

theorem natDigitsRev_lt_ten (n : Nat) : ∀ d ∈ natDigitsRev n, d < 10 := by
  induction n using Nat.strong_induction_on with
  | _ n ih =>
    rw [natDigitsRev]
    split
    · simp
    · rename_i h
      intro d hd
      rcases List.mem_cons.mp hd with rfl | hmem
      · omega
      · exact ih (n / 10) (Nat.div_lt_self (Nat.pos_of_ne_zero h) (by omega)) d hmem

theorem digitChar_toNat : ∀ d < 10, (digitChar d).toNat - Char.toNat '0' = d := by
  decide

theorem digitChar_isDigit : ∀ d < 10, (digitChar d).isDigit = true := by
  decide

theorem digitChar_not_space : ∀ d < 10, pyIsSpace (digitChar d) = false := by
  decide

theorem foldl_map_digitChar (ds : List Nat) (h : ∀ d ∈ ds, d < 10) :
    ∀ acc : Nat,
      (ds.map digitChar).foldl (fun n c => n * 10 + (c.toNat - Char.toNat '0')) acc =
        ds.foldl (fun n d => n * 10 + d) acc := by
  induction ds with
  | nil => intro acc; rfl
  | cons d ds ih =>
    intro acc
    simp only [List.map_cons, List.foldl_cons]
    rw [digitChar_toNat d (h d (List.mem_cons_self d ds))]
    exact ih (fun e he => h e (List.mem_cons_of_mem d he)) _

theorem foldl_natDigitsRev_reverse (n : Nat) :
    ∀ acc : Nat,
      (natDigitsRev n).reverse.foldl (fun a d => a * 10 + d) acc =
        acc * 10 ^ (natDigitsRev n).length + n := by
  induction n using Nat.strong_induction_on with
  | _ n ih =>
    intro acc
    rw [natDigitsRev]
    split
    · rename_i h
      subst h
      simp
    · rename_i h
      simp only [List.reverse_cons, List.foldl_append, List.foldl_cons,
        List.foldl_nil, List.length_cons]
      rw [ih (n / 10) (Nat.div_lt_self (Nat.pos_of_ne_zero h) (by omega)) acc]
      have hmod := Nat.div_add_mod n 10
      ring_nf
      omega

theorem parseDigits_natRepr (n : Nat) : parseDigits (natRepr n) = n := by
  unfold natRepr
  split
  · rename_i h
    subst h
    decide
  · unfold parseDigits
    have hlt : ∀ d ∈ (natDigitsRev n).reverse, d < 10 := by
      intro d hd
      exact natDigitsRev_lt_ten n d (List.mem_reverse.mp hd)
    rw [foldl_map_digitChar _ hlt 0, foldl_natDigitsRev_reverse n 0]
    simp

theorem natRepr_mem_digit (n : Nat) :
    ∀ c ∈ natRepr n, ∃ d < 10, c = digitChar d := by
  unfold natRepr
  split
  · intro c hc
    rcases List.mem_singleton.mp hc with rfl
    exact ⟨0, by omega, by decide⟩
  · intro c hc
    rcases List.mem_map.mp hc with ⟨d, hd, rfl⟩
    exact ⟨d, natDigitsRev_lt_ten n d (List.mem_reverse.mp hd), rfl⟩

theorem dropWhile_pyIsSpace_eq_self (cs : List Char)
    (h : ∀ c ∈ cs, pyIsSpace c = false) :
    cs.dropWhile pyIsSpace = cs := by
  cases cs with
  | nil => rfl
  | cons a l =>
    rw [List.dropWhile_cons]
    simp [h a (List.mem_cons_self a l)]

theorem stripChars_eq_self (cs : List Char)
    (h : ∀ c ∈ cs, pyIsSpace c = false) : stripChars cs = cs := by
  unfold stripChars
  rw [dropWhile_pyIsSpace_eq_self cs h,
    dropWhile_pyIsSpace_eq_self cs.reverse
      (fun c hc => h c (List.mem_reverse.mp hc)),
    List.reverse_reverse]

theorem natRepr_ne_nil (n : Nat) : natRepr n ≠ [] := by
  unfold natRepr
  split
  · simp
  · rename_i h
    rw [natDigitsRev]
    rw [dif_neg h]
    simp

theorem load_natRepr (n : Nat) : load_high_score (some (natRepr n)) = n := by
  unfold load_high_score
  have hws : ∀ c ∈ natRepr n, pyIsSpace c = false := by
    intro c hc
    rcases natRepr_mem_digit n c hc with ⟨d, hd, rfl⟩
    exact digitChar_not_space d hd
  simp only [stripChars_eq_self (natRepr n) hws]
  have hdig : isdigitStr (natRepr n) = true := by
    unfold isdigitStr
    rw [Bool.and_eq_true, List.all_eq_true]
    constructor
    · rw [Bool.not_eq_true']
      exact (Bool.not_eq_true _).mp fun hch =>
        natRepr_ne_nil n (List.isEmpty_iff.mp hch)
    · intro c hc
      rcases natRepr_mem_digit n c hc with ⟨d, hd, rfl⟩
      exact digitChar_isDigit d hd
  rw [if_pos hdig]
  exact parseDigits_natRepr n

theorem check_collision_grow (s : Snake) :
    (s.grow).check_collision = s.check_collision := rfl

theorem end_round_check_spec (g1 : GameManager) :
    (g1.end_round_check).snake = g1.snake ∧
      (g1.end_round_check).food = g1.food ∧
      (g1.end_round_check).score = g1.score ∧
      (g1.end_round_check).paused = g1.paused ∧
      (g1.end_round_check).game_state = g1.game_state ∧
      (g1.end_round_check).game_over =
        (g1.game_over || g1.snake.check_collision) ∧
      (g1.snake.check_collision = true →
        (g1.score > g1.high_score →
          (g1.end_round_check).high_score = g1.score ∧
            (g1.end_round_check).store = some (natRepr g1.score)) ∧
        (¬ g1.score > g1.high_score →
          (g1.end_round_check).high_score = g1.high_score ∧
            (g1.end_round_check).store = g1.store)) ∧
      (g1.snake.check_collision = false → g1.end_round_check = g1) := by
  unfold GameManager.end_round_check GameManager.save_high_score
  by_cases hc : g1.snake.check_collision
  · rw [if_pos hc]
    by_cases hs : g1.score > g1.high_score
    · rw [if_pos hs]
      refine ⟨rfl, rfl, rfl, rfl, rfl, by simp [hc], ?_, by simp [hc]⟩
      exact fun _ => ⟨fun _ => ⟨rfl, rfl⟩, fun hns => absurd hs hns⟩
    · rw [if_neg hs]
      refine ⟨rfl, rfl, rfl, rfl, rfl, by simp [hc], ?_, by simp [hc]⟩
      exact fun _ => ⟨fun hs' => absurd hs' hs, fun _ => ⟨rfl, rfl⟩⟩
  · rw [if_neg hc]
    rw [Bool.not_eq_true] at hc
    refine ⟨rfl, rfl, rfl, rfl, rfl, by simp [hc], ?_, fun _ => rfl⟩
    intro hc'
    exact absurd hc' (by simp [hc])

theorem reset_game_spec (g g1 : GameManager) (rnd : Nat → Fin 40 × Fin 30)
    (fuel : Nat) (h : g.reset_game rnd fuel = some g1) :
    g1.snake = Snake.init ∧ g1.food ∉ Snake.init.body ∧ foodInBounds g1.food ∧
      g1.score = 0 ∧ g1.game_over = false ∧ g1.high_score = g.high_score ∧
      g1.paused = g.paused ∧ g1.store = g.store ∧
      g1.game_state = g.game_state := by
  unfold GameManager.reset_game at h
  rcases hgen : Food.generate_position Snake.init.body rnd fuel 0 with _ | p <;>
    rw [hgen] at h
  · exact absurd h (by simp)
  · simp only [Option.some.injEq] at h
    subst h
    obtain ⟨hmem, hbd⟩ := generate_position_sound _ _ _ _ _ hgen
    exact ⟨rfl, hmem, hbd, rfl, rfl, rfl, rfl, rfl, rfl⟩

/-- C7: `update` is a no-op outside the playing/unpaused/round-running
state; otherwise it performs exactly one `Snake.move`, then — iff the
new head equals the food cell — respawns the food off the new body,
marks growth and increments the score by exactly 1, and only then runs
the collision check, whose outcome becomes the game-over flag. -/
theorem c7_update_contract (g g' : GameManager) (rnd : Nat → Fin 40 × Fin 30)
    (fuel : Nat) (h : g.update rnd fuel = some g') :
    (¬(g.game_state = GState.playing ∧ g.paused = false ∧ g.game_over = false) →
        g' = g) ∧
      ((g.game_state = GState.playing ∧ g.paused = false ∧ g.game_over = false) →
        g'.snake.body = (g.snake.move).body ∧
        g'.snake.direction = (g.snake.move).direction ∧
        g'.snake.next_direction = (g.snake.move).next_direction ∧
        g'.game_over = (g.snake.move).check_collision ∧
        g'.game_state = GState.playing ∧ g'.paused = false ∧
        ((g.snake.move).body.headD ⟨0, 0⟩ = g.food →
          g'.score = g.score + 1 ∧ g'.snake.growing = true ∧
            g'.food ∉ g'.snake.body ∧ foodInBounds g'.food) ∧
        ((g.snake.move).body.headD ⟨0, 0⟩ ≠ g.food →
          g'.score = g.score ∧ g'.food = g.food ∧ g'.snake = g.snake.move)) := by
  unfold GameManager.update at h
  by_cases hcond :
      g.game_state = GState.playing ∧ g.paused = false ∧ g.game_over = false
  · rw [if_pos hcond] at h
    refine ⟨fun hn => absurd hcond hn, fun _ => ?_⟩
    by_cases heat : (g.snake.move).body.headD ⟨0, 0⟩ = g.food
    · rw [if_pos heat] at h
      rcases hgen : Food.generate_position (g.snake.move).body rnd fuel 0
          with _ | p <;> rw [hgen] at h
      · exact absurd h (by simp)
      · simp only [Option.some.injEq] at h
        subst h
        obtain ⟨hsnake, hfood, hscore, hpaused, hstate, hover, _, _⟩ :=
          end_round_check_spec
            { g with snake := (g.snake.move).grow, food := p,
                     score := g.score + 1 }
        obtain ⟨hpmem, hpbd⟩ := generate_position_sound _ _ _ _ _ hgen
        refine ⟨by rw [hsnake]; try rfl, by rw [hsnake]; try rfl,
          by rw [hsnake]; try rfl,
          by rw [hover]; simp [hcond.2.2, check_collision_grow],
          by rw [hstate]; exact hcond.1, by rw [hpaused]; exact hcond.2.1,
          fun _ => ⟨by rw [hscore], by rw [hsnake]; rfl,
            by rw [hfood, hsnake]; exact hpmem, by rw [hfood]; exact hpbd⟩,
          fun hne => absurd heat hne⟩
    · rw [if_neg heat] at h
      simp only [Option.some.injEq] at h
      subst h
      obtain ⟨hsnake, hfood, hscore, hpaused, hstate, hover, _, _⟩ :=
        end_round_check_spec { g with snake := g.snake.move }
      refine ⟨by rw [hsnake]; try rfl, by rw [hsnake]; try rfl,
        by rw [hsnake]; try rfl,
        by rw [hover]; simp [hcond.2.2],
        by rw [hstate]; exact hcond.1, by rw [hpaused]; exact hcond.2.1,
        fun he => absurd he heat,
        fun _ => ⟨by rw [hscore], by rw [hfood], by rw [hsnake]⟩⟩
  · rw [if_neg hcond] at h
    simp only [Option.some.injEq] at h
    exact ⟨fun _ => h.symm, fun hc => absurd hc hcond⟩

/-- C8: at a transition to game over during `update`, the high score is
set to the score first and persisted iff the score strictly exceeds the
high score held at that moment (otherwise both the high score and the
store are untouched), and a subsequent `load_high_score` (simulated
restart) returns exactly the saved value. -/
theorem c8_highscore_save_iff (g g' : GameManager) (rnd : Nat → Fin 40 × Fin 30)
    (fuel : Nat) (h : g.update rnd fuel = some g')
    (hb : g.game_over = false) (ht : g'.game_over = true) :
    (g'.score > g.high_score →
        g'.high_score = g'.score ∧ g'.store = some (natRepr g'.score) ∧
          load_high_score g'.store = g'.high_score) ∧
      (¬ g'.score > g.high_score →
        g'.high_score = g.high_score ∧ g'.store = g.store) := by
  unfold GameManager.update at h
  by_cases hcond :
      g.game_state = GState.playing ∧ g.paused = false ∧ g.game_over = false
  · rw [if_pos hcond] at h
    by_cases heat : (g.snake.move).body.headD ⟨0, 0⟩ = g.food
    · rw [if_pos heat] at h
      rcases hgen : Food.generate_position (g.snake.move).body rnd fuel 0
          with _ | p <;> rw [hgen] at h
      · exact absurd h (by simp)
      · simp only [Option.some.injEq] at h
        subst h
        set g1 : GameManager :=
          { g with snake := (g.snake.move).grow, food := p,
                   score := g.score + 1 } with hg1
        obtain ⟨_, _, hscore, _, _, hover, hcol, _⟩ := end_round_check_spec g1
        have hc : g1.snake.check_collision = true := by
          rcases Bool.eq_false_or_eq_true g1.snake.check_collision with hct | hcf
          · exact hct
          · rw [hover, hcf, Bool.or_false, hg1] at ht
            simp [hb] at ht
        obtain ⟨hyes, hno⟩ := hcol hc
        constructor
        · intro hgt
          rw [hscore] at hgt
          obtain ⟨hh, hs⟩ := hyes hgt
          exact ⟨by rw [hh, hscore], by rw [hs, hscore],
            by rw [hs, hh]; exact load_natRepr g1.score⟩
        · intro hle
          rw [hscore] at hle
          obtain ⟨hh, hs⟩ := hno hle
          exact ⟨hh, hs⟩
    · rw [if_neg heat] at h
      simp only [Option.some.injEq] at h
      subst h
      set g1 : GameManager := { g with snake := g.snake.move } with hg1
      obtain ⟨_, _, hscore, _, _, hover, hcol, _⟩ := end_round_check_spec g1
      have hc : g1.snake.check_collision = true := by
        rcases Bool.eq_false_or_eq_true g1.snake.check_collision with hct | hcf
        · exact hct
        · rw [hover, hcf, Bool.or_false, hg1] at ht
          simp [hb] at ht
      obtain ⟨hyes, hno⟩ := hcol hc
      constructor
      · intro hgt
        rw [hscore] at hgt
        obtain ⟨hh, hs⟩ := hyes hgt
        exact ⟨by rw [hh, hscore], by rw [hs, hscore],
          by rw [hs, hh]; exact load_natRepr g1.score⟩
      · intro hle
        rw [hscore] at hle
        obtain ⟨hh, hs⟩ := hno hle
        exact ⟨hh, hs⟩
  · rw [if_neg hcond] at h
    simp only [Option.some.injEq] at h
    subst h
    rw [hb] at ht
    exact absurd ht (by decide)

/-- C9: the code violates the claim, not the other way round — Python's
`str.isdigit` accepts characters `int()` rejects, so the `isdigit`
guard in `load_high_score` does not make `int()` safe.  Under the
Unicode-database facts for the characters involved (each stated as a
hypothesis on the character data `P`): on content "²" (U+00B2, a
Numeric_Type=Digit superscript) `isdigit` passes but `int` raises
`ValueError` to the caller; on "٣" (U+0663, Numeric_Type=Decimal,
value 3) it returns 3, and on "\x0b5" (after stripping the vertical
tab) it returns 5 — where the claim demands 0, 0, 0 and no raise. -/
theorem c9_pyload_divergence (P : PyCharData)
    (hsup_d : P.isDigit '²' = true) (hsup_v : P.decimalVal '²' = none)
    (har_d : P.isDigit '٣' = true) (har_v : P.decimalVal '٣' = some 3)
    (h5_d : P.isDigit '5' = true) (h5_v : P.decimalVal '5' = some 5) :
    pyLoad P (some ['²']) = Except.error () ∧
      pyLoad P (some ['٣']) = Except.ok 3 ∧
      pyLoad P (some ['\x0b', '5']) = Except.ok 5 := by
  have hs2 : pyIsSpace '²' = false := by decide
  have hs3 : pyIsSpace '٣' = false := by decide
  have hs5 : pyIsSpace '5' = false := by decide
  have hsv : pyIsSpace '\x0b' = true := by decide
  refine ⟨?_, ?_, ?_⟩ <;>
    simp [pyLoad, stripChars, pyIsdigit, pyInt, List.dropWhile_cons,
      hs2, hs3, hs5, hsv, hsup_d, hsup_v, har_d, har_v, h5_d, h5_v]

/-- C9 witness: the divergence theorem instantiated at the concrete
character table `pyData0`. -/
theorem c9_pyload_divergence_witness :
    pyLoad pyData0 (some ['²']) = Except.error () ∧
      pyLoad pyData0 (some ['٣']) = Except.ok 3 ∧
      pyLoad pyData0 (some ['\x0b', '5']) = Except.ok 5 :=
  c9_pyload_divergence pyData0 (by decide) (by decide) (by decide)
    (by decide) (by decide) (by decide)

theorem handle_key_queue (g : GameManager) (k : Key)
    (rnd : Nat → Fin 40 × Fin 30) (fuel : Nat) (g' : GameManager) (r : Bool)
    (h : g.handle_key k rnd fuel = some (g', r)) :
    g'.snake.next_direction = [] ∨
      g'.snake.next_direction = g.snake.next_direction ∨
      (g.snake.next_direction.length < 2 ∧
        ∃ d, g'.snake.next_direction = g.snake.next_direction ++ [d]) := by
  unfold GameManager.handle_key at h
  by_cases h1 : g.game_state = GState.start
  · rw [if_pos h1] at h
    by_cases h2 : k = Key.space
    · rw [if_pos h2] at h
      rcases hr : g.reset_game rnd fuel with _ | g1 <;> rw [hr] at h
      · exact absurd h (by simp)
      · simp only [Option.map_some', Option.some.injEq, Prod.mk.injEq] at h
        left
        rw [← h.1]
        show g1.snake.next_direction = []
        rw [(reset_game_spec g g1 rnd fuel hr).1]
        rfl
    · rw [if_neg h2] at h
      by_cases h3 : k = Key.q
      · rw [if_pos h3] at h
        simp only [Option.some.injEq, Prod.mk.injEq] at h
        right; left
        rw [← h.1]
      · rw [if_neg h3] at h
        simp only [Option.some.injEq, Prod.mk.injEq] at h
        right; left
        rw [← h.1]
  · rw [if_neg h1] at h
    by_cases h2 : g.game_over = true
    · rw [if_pos h2] at h
      by_cases h3 : k = Key.r
      · rw [if_pos h3] at h
        rcases hr : g.reset_game rnd fuel with _ | g1 <;> rw [hr] at h
        · exact absurd h (by simp)
        · simp only [Option.map_some', Option.some.injEq, Prod.mk.injEq] at h
          left
          rw [← h.1]
          show g1.snake.next_direction = []
          rw [(reset_game_spec g g1 rnd fuel hr).1]
          rfl
      · rw [if_neg h3] at h
        by_cases h4 : k = Key.q
        · rw [if_pos h4] at h
          simp only [Option.some.injEq, Prod.mk.injEq] at h
          right; left
          rw [← h.1]
        · rw [if_neg h4] at h
          simp only [Option.some.injEq, Prod.mk.injEq] at h
          right; left
          rw [← h.1]
    · rw [if_neg h2] at h
      by_cases h3 : k = Key.p
      · rw [if_pos h3] at h
        simp only [Option.some.injEq, Prod.mk.injEq] at h
        right; left
        rw [← h.1]
      · rw [if_neg h3] at h
        by_cases h4 : g.paused = true
        · rw [if_pos h4] at h
          simp only [Option.some.injEq, Prod.mk.injEq] at h
          right; left
          rw [← h.1]
        · rw [if_neg h4] at h
          rcases hd : dirOfKey k with _ | d <;> rw [hd] at h <;>
            simp only [] at h
          · simp only [Option.some.injEq, Prod.mk.injEq] at h
            right; left
            rw [← h.1]
          · by_cases h5 : g.snake.next_direction.length < 2
            · rw [if_pos h5] at h
              simp only [Option.some.injEq, Prod.mk.injEq] at h
              right; right
              exact ⟨h5, d, by rw [← h.1]⟩
            · rw [if_neg h5] at h
              simp only [Option.some.injEq, Prod.mk.injEq] at h
              right; left
              rw [← h.1]

/-- C4: a key event appends a direction to the pending queue iff the key
is directional, the game is playing (not paused, round running) and the
queue length is strictly below 2 at that moment; consequently the queue
length never exceeds 2 (every key event preserves the bound). -/
theorem c4_queue_bound :
    (∀ (g : GameManager) (k : Key) (rnd : Nat → Fin 40 × Fin 30) (fuel : Nat)
        (g' : GameManager) (r : Bool),
        g.handle_key k rnd fuel = some (g', r) →
        g.snake.next_direction.length ≤ 2 →
        g'.snake.next_direction.length ≤ 2) ∧
      (∀ (g : GameManager) (k : Key) (d : Vec2) (rnd : Nat → Fin 40 × Fin 30)
          (fuel : Nat) (g' : GameManager) (r : Bool),
          g.game_state = GState.playing → g.game_over = false →
          g.paused = false → dirOfKey k = some d →
          g.handle_key k rnd fuel = some (g', r) →
          g'.snake.next_direction =
            if g.snake.next_direction.length < 2 then
              g.snake.next_direction ++ [d]
            else g.snake.next_direction) := by
  constructor
  · intro g k rnd fuel g' r h hlen
    rcases handle_key_queue g k rnd fuel g' r h with h0 | h0 | ⟨hlt, d, h0⟩ <;>
      rw [h0]
    · simp
    · exact hlen
    · rw [List.length_append]
      simp only [List.length_singleton]
      omega
  · intro g k d rnd fuel g' r hgs hgo hp hd h
    unfold GameManager.handle_key at h
    rw [hgs] at h
    rw [if_neg (by decide : ¬(GState.playing = GState.start))] at h
    rw [hgo] at h
    rw [if_neg (by decide : ¬(false = true))] at h
    have hkp : k ≠ Key.p := by
      intro hk
      rw [hk] at hd
      simp [dirOfKey] at hd
    rw [if_neg hkp] at h
    rw [hp] at h
    rw [if_neg (by decide : ¬(false = true))] at h
    rw [hd] at h
    simp only [] at h
    by_cases h5 : g.snake.next_direction.length < 2
    · rw [if_pos h5] at h
      simp only [Option.some.injEq, Prod.mk.injEq] at h
      rw [if_pos h5, ← h.1]
    · rw [if_neg h5] at h
      simp only [Option.some.injEq, Prod.mk.injEq] at h
      rw [if_neg h5, ← h.1]

/-- C4 witness: pressing `w` in `gW4` (empty queue) appends `dirUp` and
keeps the queue within the bound. -/
theorem c4_queue_bound_witness :
    gW4'.snake.next_direction.length ≤ 2 ∧
      gW4'.snake.next_direction =
        (if gW4.snake.next_direction.length < 2 then
          gW4.snake.next_direction ++ [dirUp]
        else gW4.snake.next_direction) :=
  ⟨c4_queue_bound.1 gW4 Key.w (fun _ => (0, 0)) 1 gW4' true
      (by decide) (by decide),
    c4_queue_bound.2 gW4 Key.w dirUp (fun _ => (0, 0)) 1 gW4' true
      rfl rfl rfl rfl (by decide)⟩

/-- C7 witness: one `update` from `gW7` moves the snake, does not eat,
does not end the round. -/
theorem c7_update_contract_witness :
    (¬(gW7.game_state = GState.playing ∧ gW7.paused = false ∧
          gW7.game_over = false) → gW7' = gW7) ∧
      ((gW7.game_state = GState.playing ∧ gW7.paused = false ∧
          gW7.game_over = false) →
        gW7'.snake.body = (gW7.snake.move).body ∧
        gW7'.snake.direction = (gW7.snake.move).direction ∧
        gW7'.snake.next_direction = (gW7.snake.move).next_direction ∧
        gW7'.game_over = (gW7.snake.move).check_collision ∧
        gW7'.game_state = GState.playing ∧ gW7'.paused = false ∧
        ((gW7.snake.move).body.headD ⟨0, 0⟩ = gW7.food →
          gW7'.score = gW7.score + 1 ∧ gW7'.snake.growing = true ∧
            gW7'.food ∉ gW7'.snake.body ∧ foodInBounds gW7'.food) ∧
        ((gW7.snake.move).body.headD ⟨0, 0⟩ ≠ gW7.food →
          gW7'.score = gW7.score ∧ gW7'.food = gW7.food ∧
            gW7'.snake = gW7.snake.move)) :=
  c7_update_contract gW7 gW7' (fun _ => (0, 0)) 1 (by decide)

/-- C8 witness: the wall hit from `gW8` ends the round; 3 > 5 fails, so
the high score and the store are untouched. -/
theorem c8_highscore_save_iff_witness :
    (gW8'.score > gW8.high_score →
        gW8'.high_score = gW8'.score ∧
          gW8'.store = some (natRepr gW8'.score) ∧
          load_high_score gW8'.store = gW8'.high_score) ∧
      (¬ gW8'.score > gW8.high_score →
        gW8'.high_score = gW8.high_score ∧ gW8'.store = gW8.store) :=
  c8_highscore_save_iff gW8 gW8' (fun _ => (0, 0)) 1 (by decide) rfl rfl

end SnakeGame
